import Mathlib

/-!
Verification of the SwyamPandey/Chatbot repository (files `rr.py` and
`frontend.py`) against its natural-language specification.

The Python code is shallowly embedded: pure functions become Lean functions,
Python dict payloads become association lists `List (String × Value)`,
Python floats become `Rat` (the claims under scrutiny only exercise exact
arithmetic and error paths), Python strings become `String` or `List Char`,
and calls to external services (LLM backend, web search, market data, the
sqlite connection) become oracle parameters of type `Except`/sum so that
"the call raised" is an explicit outcome the embedded code must handle.
-/

set_option autoImplicit false

/-- A JSON-ish payload value: the calculator and stock tools return dicts
whose values are numbers or strings. -/
inductive Value where
  | num (q : Rat)
  | str (s : String)
  deriving DecidableEq, Repr

/-- A single apostrophe, used by `calculator` when formatting the
"Unsupported operation" message. -/
def squote : String := String.mk [Char.ofNat 39]

/-- The four-field success dict built at `rr.py` lines 64-69. -/
def calcPayload (first_num second_num : Rat) (operation : String) (result : Rat) :
    List (String × Value) :=
  [("first_num", Value.num first_num), ("second_num", Value.num second_num),
   ("operation", Value.str operation), ("result", Value.num result)]

/-- Embedding of `calculator` (`rr.py` lines 44-71).  The Python body is a
chain of `if operation == ...` tests; division checks `second_num == 0`
first and returns an error dict; an unrecognized operation returns an error
dict.  The surrounding `try/except` cannot fire on these total operations,
so the embedding is the guarded chain itself. -/
def calculator (first_num second_num : Rat) (operation : String) :
    List (String × Value) :=
  if operation = "add" then
    calcPayload first_num second_num operation (first_num + second_num)
  else if operation = "sub" then
    calcPayload first_num second_num operation (first_num - second_num)
  else if operation = "mul" then
    calcPayload first_num second_num operation (first_num * second_num)
  else if operation = "div" then
    if second_num = 0 then
      [("error", Value.str "Division by zero is not allowed")]
    else
      calcPayload first_num second_num operation (first_num / second_num)
  else
    [("error", Value.str ("Unsupported operation " ++ squote ++ operation ++ squote))]

/-- Embedding of `brave_search` (`rr.py` lines 31-42).  The external
DuckDuckGo call is the oracle `search`; the Python `try/except` maps a
raised exception `e` to the string `"Search failed: " ++ e`. -/
def brave_search (search : String → Except String String) (query : String) : String :=
  match search query with
  | Except.ok result => result
  | Except.error e => "Search failed: " ++ e

/-- Outcome of the HTTP fetch performed by `get_stock_price`: success with a
parsed JSON body, a `requests.RequestException`, or any other exception
(e.g. a JSON parse failure). -/
inductive FetchOutcome where
  | ok (body : List (String × Value))
  | requestError (e : String)
  | otherError (e : String)

/-- The Alpha Vantage URL built at `rr.py` line 80. -/
def stockUrl (symbol : String) : String :=
  "https://www.alphavantage.co/query?function=GLOBAL_QUOTE&symbol=" ++ symbol
    ++ "&apikey=02N8BQIZNVL0B3RU"

/-- Embedding of `get_stock_price` (`rr.py` lines 73-87).  The
`requests.get`/`raise_for_status`/`json()` pipeline is the oracle `fetch`;
the two `except` clauses map the two failure classes to error dicts. -/
def get_stock_price (fetch : String → FetchOutcome) (symbol : String) :
    List (String × Value) :=
  match fetch (stockUrl symbol) with
  | FetchOutcome.ok body => body
  | FetchOutcome.requestError e => [("error", Value.str ("API request failed: " ++ e))]
  | FetchOutcome.otherError e => [("error", Value.str ("Unexpected error: " ++ e))]

/-!  Thread naming (`frontend.py` lines 10-23).  Python string semantics are
modelled on `List Char`: `str.strip()` drops whitespace from both ends,
`str.split()` (no separator) splits on runs of whitespace discarding empty
pieces, and `" ".join(...)` interleaves single spaces. -/

/-- Python whitespace test (`str.isspace` on the ASCII range used here). -/
def isPySpace (c : Char) : Bool :=
  c == ' ' || c == '\t' || c == '\n' || c == '\r' || c == '\x0b' || c == '\x0c'

/-- Python `str.strip()`. -/
def pyStrip (l : List Char) : List Char :=
  ((l.dropWhile isPySpace).reverse.dropWhile isPySpace).reverse

/-- Worker for Python `str.split()` with no separator: `acc` holds the
current in-progress word, reversed. -/
def pySplitAux : List Char → List Char → List (List Char)
  | [], acc => if acc.isEmpty then [] else [acc.reverse]
  | c :: cs, acc =>
    if isPySpace c then
      if acc.isEmpty then pySplitAux cs [] else acc.reverse :: pySplitAux cs []
    else
      pySplitAux cs (c :: acc)

/-- Python `str.split()` with no separator. -/
def pySplit (l : List Char) : List (List Char) :=
  pySplitAux l []

/-- Python `" ".join(words)`. -/
def joinSpace : List (List Char) → List Char
  | [] => []
  | [w] => w
  | w :: w2 :: ws => w ++ ' ' :: joinSpace (w2 :: ws)

/-- Python `" ".join(s.split())`: collapse runs of whitespace to single
spaces and trim. -/
def collapseWs (l : List Char) : List Char :=
  joinSpace (pySplit l)

/-- Embedding of `generate_thread_name` (`frontend.py` lines 10-23):
falsy (empty) input yields "New Chat"; otherwise strip, truncate the
stripped text to 47 characters plus "..." when it exceeds 50, collapse
whitespace, and fall back to "New Chat" if nothing is left. -/
def generate_thread_name (first_message : List Char) : List Char :=
  if first_message.isEmpty then "New Chat".toList
  else
    let name := pyStrip first_message
    let name := if name.length > 50 then name.take 47 ++ "...".toList else name
    let name := collapseWs name
    if name.isEmpty then "New Chat".toList else name

/-!  The conversation-turn state machine (`rr.py` lines 98-146).  The graph
has the two repository nodes `chat_node` and `tools`, wired
`START → chat_node`, `chat_node → (tools | END)` via `tools_condition`, and
`tools → chat_node`.  Messages carry a role, content, and the tool-call
requests attached by the model; the LLM backend is the oracle `invoke`
(`Except.error e` models a raised exception), and tool execution is the
oracle `runTool`. -/

inductive Role where
  | user
  | assistant
  | tool
  deriving DecidableEq, Repr

/-- A request by the model to run a named tool, correlated by `id`. -/
structure ToolCall where
  id : String
  name : String
  args : String
  deriving DecidableEq, Repr

/-- A chat message as carried in `ChatState.messages`. -/
structure Message where
  role : Role
  content : String
  tool_calls : List ToolCall
  deriving DecidableEq, Repr

/-- The error text produced by `chat_node`'s `except` branch
(`rr.py` lines 110-116). -/
def chatNodeErrorContent (e : String) : String :=
  "I apologize, but I encountered an error: Error in chat_node: " ++ e

/-- Embedding of `chat_node` (`rr.py` lines 104-116): invoke the
tool-bound model on the current messages; if the call raises, return an
assistant message describing the error (with no tool calls) instead of
propagating. -/
def chat_node (invoke : List Message → Except String Message)
    (messages : List Message) : Message :=
  match invoke messages with
  | Except.ok response => response
  | Except.error e =>
      { role := Role.assistant, content := chatNodeErrorContent e, tool_calls := [] }

/-- Modelled from the spec: langgraph's `tools_condition` (library code used
at `rr.py` line 139, not part of this repository) routes to the tools node
exactly when the model response carries one or more ToolCalls, otherwise to
END: "Transition to EXECUTING_TOOLS if the response contains one or more
ToolCalls; otherwise transition to DONE". -/
def tools_condition (response : Message) : Bool :=
  !response.tool_calls.isEmpty

/-- Modelled from the spec: langgraph's `ToolNode` (library code used at
`rr.py` line 119, not part of this repository) runs each pending ToolCall of
the latest message and collects each outcome as a ToolResult message:
"for each pending ToolCall, invoke the matching Tool Set capability by
name; collect each outcome as a ToolResult message". -/
def tool_node (runTool : ToolCall → String) (messages : List Message) :
    List Message :=
  match messages.getLast? with
  | some m => m.tool_calls.map
      (fun tc => { role := Role.tool, content := runTool tc, tool_calls := [] })
  | none => []

/-- The three control locations of the compiled graph: `chat` is the spec's
AWAITING_MODEL, `tools` is EXECUTING_TOOLS, `done` is DONE (END). -/
inductive Node where
  | chat
  | tools
  | done
  deriving DecidableEq, Repr

/-- A point in the execution of one turn: the active node plus the
accumulated `ChatState.messages` (the `add_messages` reducer appends). -/
structure GraphState where
  node : Node
  messages : List Message
  deriving DecidableEq, Repr

/-- One step of the compiled graph of `rr.py` lines 134-140: at `chat`, run
`chat_node`, append its response, and branch with `tools_condition`; at
`tools`, run `tool_node`, append all ToolResult messages, and return to
`chat`; `done` is terminal. -/
def stepGraph (invoke : List Message → Except String Message)
    (runTool : ToolCall → String) (s : GraphState) : GraphState :=
  match s.node with
  | Node.chat =>
      let resp := chat_node invoke s.messages
      if tools_condition resp then
        { node := Node.tools, messages := s.messages ++ [resp] }
      else
        { node := Node.done, messages := s.messages ++ [resp] }
  | Node.tools =>
      { node := Node.chat, messages := s.messages ++ tool_node runTool s.messages }
  | Node.done => s

/-!  Checkpointing (`rr.py` lines 124-129, 143-163; `frontend.py` lines
45-48).  The store itself is langgraph's `SqliteSaver`. -/

/-- Modelled from the spec: one persisted checkpoint of the `SqliteSaver`
store (library code, not part of this repository), keyed by its thread
identifier as read back by `retrieve_all_threads` via
`checkpoint.config["configurable"]["thread_id"]`. -/
structure Checkpoint where
  thread_id : String
  deriving DecidableEq, Repr

/-- Modelled from the spec: the `SqliteSaver` checkpoint store (library
code, not part of this repository): "persists the full message history per
thread identifier", listable checkpoint by checkpoint.  The per-thread
history map records, for each thread id, the latest committed message
sequence. -/
structure Checkpointer where
  checkpoints : List Checkpoint
  histories : List (String × List Message)
  deriving DecidableEq, Repr

/-- Modelled from the spec: `append_turn` of the Checkpoint Store contract
("durably persists the full updated history for the thread"; the library
realizes it as a whole-history snapshot write keyed by thread id). -/
def append_turn (cp : Checkpointer) (thread_id : String)
    (messages : List Message) : Checkpointer :=
  { cp with
    checkpoints := cp.checkpoints ++ [{ thread_id := thread_id }],
    histories := (thread_id, messages) :: cp.histories }

/-- Modelled from the spec: `get_history` of the Checkpoint Store contract:
the ordered message sequence last persisted for the thread, the empty
sequence if the thread is unknown. -/
def get_history (cp : Checkpointer) (thread_id : String) : List Message :=
  match cp.histories.lookup thread_id with
  | some messages => messages
  | none => []

/-- Embedding of `load_conversation` (`frontend.py` lines 45-48): read the
graph state checkpointed for the thread and return its `messages` value,
defaulting to the empty list when absent. -/
def load_conversation (cp : Checkpointer) (thread_id : String) : List Message :=
  match cp.histories.lookup thread_id with
  | some messages => messages
  | none => []

/-- Embedding of the checkpointer initialization (`rr.py` lines 124-129):
the sqlite connection plus `SqliteSaver` construction is the oracle
`connect`; on a raised exception the handle is `None`. -/
def initCheckpointer (connect : Except String Checkpointer) : Option Checkpointer :=
  match connect with
  | Except.ok cp => some cp
  | Except.error _ => none

/-- The compiled chatbot graph, as far as the claims are concerned: whether
it was compiled with a checkpointer (`rr.py` lines 143-146). -/
structure CompiledGraph where
  hasCheckpointer : Bool
  deriving DecidableEq, Repr

/-- Embedding of `rr.py` lines 143-146: compile with the checkpointer when
one exists, otherwise compile without one. -/
def compileChatbot (cp : Option Checkpointer) : CompiledGraph :=
  match cp with
  | some _ => { hasCheckpointer := true }
  | none => { hasCheckpointer := false }

/-- Embedding of `retrieve_all_threads` (`rr.py` lines 151-163): with no
checkpointer return the empty list; otherwise collect the thread id of
every listed checkpoint into a set and return it as a list. -/
def retrieve_all_threads (cp : Option Checkpointer) : List String :=
  match cp with
  | none => []
  | some c => (c.checkpoints.map Checkpoint.thread_id).dedup

/-- Sample ToolCall used to exercise the state machine on concrete inputs. -/
def sampleToolCall : ToolCall :=
  { id := "call_1", name := "calculator", args := "first_num=2,second_num=3,operation=add" }

/-- A model response that requests one tool invocation. -/
def sampleToolRequest : Message :=
  { role := Role.assistant, content := "", tool_calls := [sampleToolCall] }

/-- A model response that is a final answer (no tool calls). -/
def sampleFinalAnswer : Message :=
  { role := Role.assistant, content := "The result is 5", tool_calls := [] }

theorem lookup_eq_none_of_not_mem_keys {β : Type} (l : List (String × β)) (a : String)
    (h : a ∉ l.map Prod.fst) : l.lookup a = none := by
  induction l with
  | nil => rfl
  | cons p rest ih =>
    obtain ⟨k, v⟩ := p
    simp only [List.map_cons, List.mem_cons, not_or] at h
    have hne : (a == k) = false := beq_false_of_ne h.1
    simp only [List.lookup, hne]
    exact ih h.2

/-- Claim C3: for every thread identifier and every message sequence
committed for it, reading the thread history afterwards (`get_history` and
`load_conversation`) returns exactly the committed sequence, in order; for
a thread identifier the store does not know, both readers return the empty
sequence. -/
theorem history_roundtrip (cp : Checkpointer) (thread_id : String)
    (messages : List Message) :
    get_history (append_turn cp thread_id messages) thread_id = messages ∧
    load_conversation (append_turn cp thread_id messages) thread_id = messages ∧
    (∀ tid, tid ∉ cp.histories.map Prod.fst →
      get_history cp tid = [] ∧ load_conversation cp tid = []) := by
  refine ⟨by simp [get_history, append_turn, List.lookup],
          by simp [load_conversation, append_turn, List.lookup],
          fun tid h => ?_⟩
  have hl := lookup_eq_none_of_not_mem_keys cp.histories tid h
  exact ⟨by simp [get_history, hl], by simp [load_conversation, hl]⟩

/-- Witness for claim C3: on an empty store, "t1" is unknown (the
hypothesis holds) so reading it gives the empty sequence, and after
committing a one-message history for "t1" the read returns it. -/
theorem history_roundtrip_witness :
    "t1" ∉ (Checkpointer.mk [] []).histories.map Prod.fst ∧
    get_history (append_turn (Checkpointer.mk [] []) "t1" [sampleFinalAnswer]) "t1" =
      [sampleFinalAnswer] ∧
    get_history (Checkpointer.mk [] []) "t1" = [] :=
  ⟨by simp,
   (history_roundtrip (Checkpointer.mk [] []) "t1" [sampleFinalAnswer]).1,
   ((history_roundtrip (Checkpointer.mk [] []) "t1" []).2.2 "t1" (by simp)).1⟩

/-- Claim C1: for every model response produced in the AWAITING_MODEL state,
the machine transitions to EXECUTING_TOOLS (the tools node) when the
response carries one or more ToolCalls, and otherwise to DONE with that
response appended as the final answer (the last message); and from the
tools node, after appending all ToolResult messages, control always
transitions back to AWAITING_MODEL (the chat node). -/
theorem graph_loop_transitions (invoke : List Message → Except String Message)
    (runTool : ToolCall → String) (msgs : List Message) :
    ((chat_node invoke msgs).tool_calls ≠ [] →
      stepGraph invoke runTool { node := Node.chat, messages := msgs } =
        { node := Node.tools, messages := msgs ++ [chat_node invoke msgs] }) ∧
    ((chat_node invoke msgs).tool_calls = [] →
      stepGraph invoke runTool { node := Node.chat, messages := msgs } =
        { node := Node.done, messages := msgs ++ [chat_node invoke msgs] } ∧
      (msgs ++ [chat_node invoke msgs]).getLast? = some (chat_node invoke msgs)) ∧
    stepGraph invoke runTool { node := Node.tools, messages := msgs } =
      { node := Node.chat, messages := msgs ++ tool_node runTool msgs } := by
  refine ⟨fun h => ?_, fun h => ⟨?_, by simp⟩, rfl⟩
  · simp [stepGraph, tools_condition, List.isEmpty_iff, h]
  · simp [stepGraph, tools_condition, List.isEmpty_iff, h]

/-- Claim C2: when the language-model invocation raises during
AWAITING_MODEL, `chat_node` does not propagate the exception (it is a total
function of the failure): it returns exactly one assistant message whose
content describes the error and which carries no tool calls, the machine
transitions directly to DONE, and DONE is terminal. -/
theorem model_failure_reaches_done (invoke : List Message → Except String Message)
    (runTool : ToolCall → String) (msgs : List Message) (e : String)
    (h : invoke msgs = Except.error e) :
    chat_node invoke msgs =
      { role := Role.assistant, content := chatNodeErrorContent e, tool_calls := [] } ∧
    stepGraph invoke runTool { node := Node.chat, messages := msgs } =
      { node := Node.done,
        messages := msgs ++
          [{ role := Role.assistant, content := chatNodeErrorContent e, tool_calls := [] }] } ∧
    (∀ s : GraphState, s.node = Node.done → stepGraph invoke runTool s = s) := by
  have hc : chat_node invoke msgs =
      { role := Role.assistant, content := chatNodeErrorContent e, tool_calls := [] } := by
    simp [chat_node, h]
  refine ⟨hc, ?_, fun s hs => ?_⟩
  · simp [stepGraph, tools_condition, hc]
  · cases s with
    | mk node messages => cases hs; rfl

/-- Witness for claim C1: with a model that requests a tool the machine
moves to the tools node, and with a model that answers directly it moves to
DONE; both hypotheses are checked on the concrete responses. -/
theorem graph_loop_transitions_witness :
    (chat_node (fun _ => Except.ok sampleToolRequest) []).tool_calls ≠ [] ∧
    stepGraph (fun _ => Except.ok sampleToolRequest) (fun _ => "5")
        { node := Node.chat, messages := [] } =
      { node := Node.tools,
        messages := [] ++ [chat_node (fun _ => Except.ok sampleToolRequest) []] } ∧
    (chat_node (fun _ => Except.ok sampleFinalAnswer) []).tool_calls = [] ∧
    stepGraph (fun _ => Except.ok sampleFinalAnswer) (fun _ => "5")
        { node := Node.chat, messages := [] } =
      { node := Node.done,
        messages := [] ++ [chat_node (fun _ => Except.ok sampleFinalAnswer) []] } :=
  ⟨by decide,
   (graph_loop_transitions (fun _ => Except.ok sampleToolRequest) (fun _ => "5") []).1
      (by decide),
   by decide,
   ((graph_loop_transitions (fun _ => Except.ok sampleFinalAnswer) (fun _ => "5") []).2.1
      (by decide)).1⟩

/-- Witness for claim C2: a backend that raises "connection refused"
satisfies the failure hypothesis, and `chat_node` yields the synthesized
assistant error message. -/
theorem model_failure_reaches_done_witness :
    (fun (_ : List Message) => (Except.error "connection refused" : Except String Message)) [] =
      Except.error "connection refused" ∧
    chat_node (fun _ => Except.error "connection refused") [] =
      { role := Role.assistant,
        content := chatNodeErrorContent "connection refused", tool_calls := [] } :=
  ⟨rfl,
   (model_failure_reaches_done (fun _ => Except.error "connection refused")
     (fun _ => "") [] "connection refused" rfl).1⟩

/-- Claim C4: for every number a, `calculator a 0 "div"` returns the
"Division by zero is not allowed" error payload without raising; for every
operation string outside add/sub/mul/div, `calculator` returns the
"Unsupported operation '...'" error payload without raising; in particular
at (4, 0, "div") and (1, 2, "xor"). -/
theorem calculator_error_payloads :
    (∀ a : Rat, calculator a 0 "div" = [("error", Value.str "Division by zero is not allowed")]) ∧
    (∀ (a b : Rat) (op : String), op ≠ "add" → op ≠ "sub" → op ≠ "mul" → op ≠ "div" →
      calculator a b op = [("error", Value.str ("Unsupported operation " ++ squote ++ op ++ squote))]) ∧
    calculator 4 0 "div" = [("error", Value.str "Division by zero is not allowed")] ∧
    calculator 1 2 "xor" = [("error", Value.str ("Unsupported operation " ++ squote ++ "xor" ++ squote))] := by
  refine ⟨fun a => by simp [calculator], fun a b op h1 h2 h3 h4 => by simp [calculator, h1, h2, h3, h4], by decide, by decide⟩

/-- Witness for claim C4: the unsupported-operation hypotheses hold for
"xor", and the theorem yields the concrete error payload there. -/
theorem calculator_error_payloads_witness :
    ("xor" ≠ "add") ∧ ("xor" ≠ "sub") ∧ ("xor" ≠ "mul") ∧ ("xor" ≠ "div") ∧
    calculator 1 2 "xor" =
      [("error", Value.str ("Unsupported operation " ++ squote ++ "xor" ++ squote))] :=
  ⟨by decide, by decide, by decide, by decide,
   calculator_error_payloads.2.1 1 2 "xor" (by decide) (by decide) (by decide) (by decide)⟩

/-- Claim C9: for every supported operation with valid arguments, the
calculator's success payload is a dict with exactly the four keys
first_num, second_num, operation, result — echoing the two inputs and the
operation name alongside the computed result. -/
theorem calculator_success_keys (a b : Rat) (op : String)
    (h : op = "add" ∨ op = "sub" ∨ op = "mul" ∨ (op = "div" ∧ b ≠ 0)) :
    ∃ r : Rat, calculator a b op =
      [("first_num", Value.num a), ("second_num", Value.num b),
       ("operation", Value.str op), ("result", Value.num r)] := by
  rcases h with h | h | h | ⟨h, hb⟩ <;> subst h
  · exact ⟨a + b, by simp [calculator, calcPayload]⟩
  · exact ⟨a - b, by simp [calculator, calcPayload]⟩
  · exact ⟨a * b, by simp [calculator, calcPayload]⟩
  · exact ⟨a / b, by simp [calculator, calcPayload, hb]⟩

/-- Witness for claim C9: "add" is a supported operation, and the theorem
yields the exact four-key payload at (2, 3, "add"). -/
theorem calculator_success_keys_witness :
    ("add" = "add" ∨ "add" = "sub" ∨ "add" = "mul" ∨ ("add" = "div" ∧ (3 : Rat) ≠ 0)) ∧
    ∃ r : Rat, calculator 2 3 "add" =
      [("first_num", Value.num 2), ("second_num", Value.num 3),
       ("operation", Value.str "add"), ("result", Value.num r)] :=
  ⟨Or.inl rfl, calculator_success_keys 2 3 "add" (Or.inl rfl)⟩

/-- Counterexample for claim C5 as stated: `calculate(2, 3, "add")` does not
return the one-key payload `result: 5`; the code returns a four-key dict. -/
theorem calculator_add_payload_not_result_only :
    calculator 2 3 "add" ≠ [("result", Value.num 5)] := by decide

/-- Claim C5 (amended): for every supported operation with valid arguments,
the calculator's success payload contains the key "result" mapped to the
computed number (alongside the echoed inputs); in particular the payload of
calculate(2, 3, "add") has result entry 5.  (As literally stated the claim
is false: the success payload is not the one-key dict `result: 5`, see the
counterexample `calculator_add_payload_not_result_only`.) -/
theorem calculator_result_field (a b : Rat) :
    (calculator a b "add").lookup "result" = some (Value.num (a + b)) ∧
    (calculator a b "sub").lookup "result" = some (Value.num (a - b)) ∧
    (calculator a b "mul").lookup "result" = some (Value.num (a * b)) ∧
    (b ≠ 0 → (calculator a b "div").lookup "result" = some (Value.num (a / b))) ∧
    (calculator 2 3 "add").lookup "result" = some (Value.num 5) := by
  refine ⟨by simp [calculator, calcPayload, List.lookup],
          by simp [calculator, calcPayload, List.lookup],
          by simp [calculator, calcPayload, List.lookup],
          fun hb => by simp [calculator, calcPayload, hb, List.lookup],
          by norm_num [calculator, calcPayload, List.lookup]; rfl⟩

/-- Witness for claim C5: the division hypothesis holds at b = 2, and the
result entry of the division payload is the quotient. -/
theorem calculator_result_field_witness :
    ((2 : Rat) ≠ 0) ∧ (calculator 1 2 "div").lookup "result" = some (Value.num (1 / 2)) :=
  ⟨by norm_num, (calculator_result_field 1 2).2.2.2.1 (by norm_num)⟩

/-- Claim C7: each tool capability is a total function of its input and of
the outcome of its external call — it never raises past its own boundary:
`brave_search` returns either the search result or the "Search failed: "
error string, `get_stock_price` returns the parsed body or an error payload
on both network and other (parse) failures, and `calculator` always returns
a success payload or an error payload. -/
theorem tools_never_raise :
    (∀ (search : String → Except String String) (query : String),
      (∃ r, search query = Except.ok r ∧ brave_search search query = r) ∨
      (∃ e, search query = Except.error e ∧
        brave_search search query = "Search failed: " ++ e)) ∧
    (∀ (fetch : String → FetchOutcome) (symbol : String),
      (∃ body, fetch (stockUrl symbol) = FetchOutcome.ok body ∧
        get_stock_price fetch symbol = body) ∨
      (∃ e, get_stock_price fetch symbol = [("error", Value.str ("API request failed: " ++ e))]) ∨
      (∃ e, get_stock_price fetch symbol = [("error", Value.str ("Unexpected error: " ++ e))])) ∧
    (∀ (a b : Rat) (op : String),
      (∃ r, calculator a b op = calcPayload a b op r) ∨
      (∃ msg, calculator a b op = [("error", Value.str msg)])) := by
  refine ⟨?_, ?_, ?_⟩
  · intro search query
    cases h : search query with
    | ok r => exact Or.inl ⟨r, rfl, by simp [brave_search, h]⟩
    | error e => exact Or.inr ⟨e, rfl, by simp [brave_search, h]⟩
  · intro fetch symbol
    cases h : fetch (stockUrl symbol) with
    | ok body => exact Or.inl ⟨body, rfl, by simp [get_stock_price, h]⟩
    | requestError e => exact Or.inr (Or.inl ⟨e, by simp [get_stock_price, h]⟩)
    | otherError e => exact Or.inr (Or.inr ⟨e, by simp [get_stock_price, h]⟩)
  · intro a b op
    by_cases h1 : op = "add"
    · exact Or.inl ⟨a + b, by simp [calculator, h1]⟩
    · by_cases h2 : op = "sub"
      · exact Or.inl ⟨a - b, by simp [calculator, h1, h2]⟩
      · by_cases h3 : op = "mul"
        · exact Or.inl ⟨a * b, by simp [calculator, h1, h2, h3]⟩
        · by_cases h4 : op = "div"
          · by_cases hb : b = 0
            · exact Or.inr ⟨"Division by zero is not allowed", by simp [calculator, h1, h2, h3, h4, hb]⟩
            · exact Or.inl ⟨a / b, by simp [calculator, h1, h2, h3, h4, hb]⟩
          · exact Or.inr ⟨"Unsupported operation " ++ squote ++ op ++ squote,
              by simp [calculator, h1, h2, h3, h4]⟩

/-- Claim C8: if initializing the checkpoint store raises, startup does not
abort: the checkpointer is `None`, the graph is compiled without a
checkpointer, and `retrieve_all_threads` returns the empty list instead of
raising. -/
theorem checkpointer_failure_degrades (e : String) :
    initCheckpointer (Except.error e) = none ∧
    compileChatbot (initCheckpointer (Except.error e)) = { hasCheckpointer := false } ∧
    retrieve_all_threads (initCheckpointer (Except.error e)) = [] := by
  refine ⟨rfl, rfl, rfl⟩

theorem generate_thread_name_eq (s : List Char) :
    generate_thread_name s =
      if s.isEmpty then "New Chat".toList
      else if (collapseWs (if (pyStrip s).length > 50 then
          (pyStrip s).take 47 ++ "...".toList else pyStrip s)).isEmpty
        then "New Chat".toList
        else collapseWs (if (pyStrip s).length > 50 then
          (pyStrip s).take 47 ++ "...".toList else pyStrip s) := rfl

theorem joinSpace_cons_length (w : List Char) (ws : List (List Char)) :
    (joinSpace (w :: ws)).length ≤ w.length + 1 + (joinSpace ws).length := by
  cases ws with
  | nil => simp [joinSpace]
  | cons w2 ws => simp [joinSpace]; omega

theorem pySplitAux_join_length (l : List Char) :
    ∀ acc : List Char, (joinSpace (pySplitAux l acc)).length ≤ l.length + acc.length := by
  induction l with
  | nil =>
    intro acc
    by_cases h : acc.isEmpty
    · simp [pySplitAux, h, joinSpace]
    · simp [pySplitAux, h, joinSpace]
  | cons c cs ih =>
    intro acc
    cases hc : isPySpace c with
    | true =>
      by_cases h : acc.isEmpty
      · have := ih []
        simp only [List.length_nil, Nat.add_zero] at this
        simp [pySplitAux, hc, h]
        omega
      · have h1 := joinSpace_cons_length acc.reverse (pySplitAux cs [])
        have h2 := ih []
        simp only [List.length_nil, Nat.add_zero] at h2
        simp only [List.length_reverse] at h1
        simp [pySplitAux, hc, h]
        omega
    | false =>
      have := ih (c :: acc)
      simp only [List.length_cons] at this
      simp [pySplitAux, hc]
      omega

theorem collapseWs_length (l : List Char) : (collapseWs l).length ≤ l.length := by
  simpa using pySplitAux_join_length l []

theorem reverse_ne_nil_of_isEmpty_false (acc : List Char) (h : acc.isEmpty = false) :
    acc.reverse ≠ [] := by
  intro hnil
  rw [List.reverse_eq_nil_iff] at hnil
  rw [hnil] at h
  simp at h

theorem pySplitAux_words (l : List Char) :
    ∀ acc : List Char, (∀ a ∈ acc, isPySpace a = false) →
      ∀ w ∈ pySplitAux l acc, w ≠ [] ∧ ∀ a ∈ w, isPySpace a = false := by
  induction l with
  | nil =>
    intro acc hacc w hw
    cases h : acc.isEmpty with
    | true => simp [pySplitAux, h] at hw
    | false =>
      simp only [pySplitAux, h, Bool.false_eq_true, if_false, List.mem_singleton] at hw
      subst hw
      exact ⟨reverse_ne_nil_of_isEmpty_false acc h,
             fun a ha => hacc a (List.mem_reverse.mp ha)⟩
  | cons c cs ih =>
    intro acc hacc w hw
    cases hc : isPySpace c with
    | true =>
      cases h : acc.isEmpty with
      | true => exact ih [] (by simp) w (by simpa [pySplitAux, hc, h] using hw)
      | false =>
        simp only [pySplitAux, hc, h, Bool.false_eq_true, if_true, if_false,
          List.mem_cons] at hw
        rcases hw with hw | hw1
        · subst hw
          exact ⟨reverse_ne_nil_of_isEmpty_false acc h,
                 fun a ha => hacc a (List.mem_reverse.mp ha)⟩
        · exact ih [] (by simp) w hw1
    | false =>
      refine ih (c :: acc) ?_ w (by simpa [pySplitAux, hc] using hw)
      intro a ha
      rcases List.mem_cons.mp ha with ha1 | ha1
      · rw [ha1]
        exact hc
      · exact hacc a ha1

theorem mem_joinSpace : ∀ (ws : List (List Char)) (c : Char), c ∈ joinSpace ws →
    c = ' ' ∨ ∃ w ∈ ws, c ∈ w
  | [], c, h => absurd h (by simp [joinSpace])
  | [w], c, h => Or.inr ⟨w, by simp, by simpa [joinSpace] using h⟩
  | w :: w2 :: ws, c, h => by
    simp only [joinSpace, List.mem_append, List.mem_cons] at h
    rcases h with h | h | h
    · exact Or.inr ⟨w, by simp, h⟩
    · exact Or.inl h
    · rcases mem_joinSpace (w2 :: ws) c h with h1 | ⟨w1, hw1, hc⟩
      · exact Or.inl h1
      · refine Or.inr ⟨w1, ?_, hc⟩
        simp only [List.mem_cons] at hw1 ⊢
        tauto

theorem chain_of_no_space (w : List Char) (hw : ∀ a ∈ w, a ≠ ' ') :
    List.Chain' (fun a b => ¬(a = ' ' ∧ b = ' ')) w := by
  induction w with
  | nil => simp
  | cons a t ih =>
    refine List.chain'_cons'.mpr ⟨fun y _ hcon => ?_, ih fun x hx => hw x (List.mem_cons_of_mem a hx)⟩
    exact hw a (List.mem_cons_self a t) hcon.1

theorem joinSpace_chain : ∀ ws : List (List Char),
    (∀ w ∈ ws, w ≠ [] ∧ ∀ a ∈ w, a ≠ ' ') →
      List.Chain' (fun a b => ¬(a = ' ' ∧ b = ' ')) (joinSpace ws) ∧
      ∀ h ∈ (joinSpace ws).head?, h ≠ ' '
  | [], _ => by simp [joinSpace]
  | [w], h => by
    refine ⟨chain_of_no_space w (h w (by simp)).2, fun x hx => ?_⟩
    exact (h w (by simp)).2 x (List.mem_of_mem_head? (by simpa [joinSpace] using hx))
  | w :: w2 :: ws, h => by
    have hw := h w (by simp)
    have hrest : ∀ u ∈ w2 :: ws, u ≠ [] ∧ ∀ a ∈ u, a ≠ ' ' := by
      intro u hu
      exact h u (List.mem_cons_of_mem w hu)
    have ih := joinSpace_chain (w2 :: ws) hrest
    have hjoin : joinSpace (w :: w2 :: ws) = w ++ ' ' :: joinSpace (w2 :: ws) := rfl
    constructor
    · rw [hjoin]
      refine List.chain'_append.mpr ⟨chain_of_no_space w hw.2, ?_, ?_⟩
      · refine List.chain'_cons'.mpr ⟨fun y hy hcon => ih.2 y hy hcon.2, ih.1⟩
      · intro x hx y hy hcon
        exact hw.2 x (List.mem_of_mem_getLast? hx) hcon.1
    · intro x hx
      rw [hjoin, List.head?_append_of_ne_nil _ hw.1] at hx
      exact hw.2 x (List.mem_of_mem_head? hx)

theorem no_space_of_not_py_space (w : List Char) (hw : ∀ a ∈ w, isPySpace a = false) :
    ∀ a ∈ w, a ≠ ' ' := by
  intro a ha heq
  have := hw a ha
  rw [heq] at this
  simp [isPySpace] at this

theorem collapseWs_chain (l : List Char) :
    List.Chain' (fun a b => ¬(a = ' ' ∧ b = ' ')) (collapseWs l) := by
  refine (joinSpace_chain (pySplit l) ?_).1
  intro w hw
  obtain ⟨h1, h2⟩ := pySplitAux_words l [] (by simp) w hw
  exact ⟨h1, no_space_of_not_py_space w h2⟩

theorem collapseWs_chars (l : List Char) (c : Char) (h : c ∈ collapseWs l) :
    c = ' ' ∨ isPySpace c = false := by
  rcases mem_joinSpace (pySplit l) c h with h1 | ⟨w, hw, hc⟩
  · exact Or.inl h1
  · exact Or.inr ((pySplitAux_words l [] (by simp) w hw).2 c hc)

theorem pySplitAux_ne_nil (l : List Char) :
    ∀ acc : List Char, acc.isEmpty = false ∨ (∃ c ∈ l, isPySpace c = false) →
      pySplitAux l acc ≠ [] := by
  induction l with
  | nil =>
    intro acc h
    rcases h with h | ⟨c, hc, _⟩
    · simp [pySplitAux, h]
    · simp at hc
  | cons c cs ih =>
    intro acc h
    cases hc : isPySpace c with
    | true =>
      cases hacc : acc.isEmpty with
      | true =>
        rcases h with h | ⟨c1, hc1, hsp⟩
        · rw [hacc] at h
          simp at h
        · rcases List.mem_cons.mp hc1 with h1 | h1
          · rw [h1, hc] at hsp
            simp at hsp
          · exact by simpa [pySplitAux, hc, hacc] using ih [] (Or.inr ⟨c1, h1, hsp⟩)
      | false => simp [pySplitAux, hc, hacc]
    | false =>
      exact by simpa [pySplitAux, hc] using ih (c :: acc) (Or.inl rfl)

theorem collapseWs_ne_nil (l : List Char) (h : ∃ c ∈ l, isPySpace c = false) :
    collapseWs l ≠ [] := by
  have hsplit : pySplit l ≠ [] := pySplitAux_ne_nil l [] (Or.inr h)
  intro hnil
  rw [collapseWs] at hnil
  cases hs : pySplit l with
  | nil => exact hsplit hs
  | cons w ws =>
    rw [hs] at hnil
    have hw : w ≠ [] := by
      refine (pySplitAux_words l [] (by simp) w ?_).1
      show w ∈ pySplit l
      rw [hs]
      simp
    cases ws with
    | nil => exact hw (by simpa [joinSpace] using hnil)
    | cons w2 ws2 =>
      have : joinSpace (w :: w2 :: ws2) = w ++ ' ' :: joinSpace (w2 :: ws2) := rfl
      rw [this] at hnil
      simp at hnil

theorem pyStrip_all_space (s : List Char) (h : ∀ c ∈ s, isPySpace c = true) :
    pyStrip s = [] := by
  have h1 : s.dropWhile isPySpace = [] := List.dropWhile_eq_nil_iff.mpr h
  simp [pyStrip, h1]

theorem newChat_chain :
    List.Chain' (fun a b => ¬(a = ' ' ∧ b = ' ')) "New Chat".toList := by
  have h : "New Chat".toList = ['N', 'e', 'w', ' ', 'C', 'h', 'a', 't'] := rfl
  rw [h]
  simp only [List.chain'_cons, List.chain'_singleton, and_true]
  decide

theorem truncate_le_50 (l : List Char) :
    (if l.length > 50 then l.take 47 ++ "...".toList else l).length ≤ 50 := by
  split
  · have h3 : ("...".toList).length = 3 := rfl
    simp only [List.length_append, List.length_take, h3]
    omega
  · omega

theorem gtn_shape (s : List Char) :
    generate_thread_name s = "New Chat".toList ∨
    ∃ t : List Char, generate_thread_name s = collapseWs t ∧ t.length ≤ 50 := by
  rw [generate_thread_name_eq]
  by_cases hs : s.isEmpty
  · exact Or.inl (by rw [if_pos hs])
  · rw [if_neg hs]
    by_cases hcol : (collapseWs (if (pyStrip s).length > 50 then
        (pyStrip s).take 47 ++ "...".toList else pyStrip s)).isEmpty
    · exact Or.inl (by rw [if_pos hcol])
    · rw [if_neg hcol]
      exact Or.inr ⟨_, rfl, truncate_le_50 (pyStrip s)⟩

theorem gtn_ne_nil (s : List Char) : generate_thread_name s ≠ [] := by
  rw [generate_thread_name_eq]
  by_cases hs : s.isEmpty
  · rw [if_pos hs]
    decide
  · rw [if_neg hs]
    by_cases hcol : (collapseWs (if (pyStrip s).length > 50 then
        (pyStrip s).take 47 ++ "...".toList else pyStrip s)).isEmpty
    · rw [if_pos hcol]
      decide
    · rw [if_neg hcol]
      simpa [List.isEmpty_iff] using hcol

theorem gtn_all_space (s : List Char) (h : ∀ c ∈ s, isPySpace c = true) :
    generate_thread_name s = "New Chat".toList := by
  rw [generate_thread_name_eq]
  by_cases hs : s.isEmpty
  · rw [if_pos hs]
  · rw [if_neg hs, pyStrip_all_space s h]
    have hcoll : collapseWs (if ([] : List Char).length > 50 then
        ([] : List Char).take 47 ++ "...".toList else []) = [] := rfl
    rw [hcoll]
    rfl

/-- Claim C10: for every input string, `generate_thread_name` returns a
non-empty string of length at most 50 that contains no newline character
(`Char.ofNat 10`) and no two consecutive spaces, and every input consisting
only of whitespace (including the empty input) yields exactly "New Chat". -/
theorem thread_name_invariants (s : List Char) :
    generate_thread_name s ≠ [] ∧
    (generate_thread_name s).length ≤ 50 ∧
    Char.ofNat 10 ∉ generate_thread_name s ∧
    List.Chain' (fun a b => ¬(a = ' ' ∧ b = ' ')) (generate_thread_name s) ∧
    ((∀ c ∈ s, isPySpace c = true) → generate_thread_name s = "New Chat".toList) := by
  refine ⟨gtn_ne_nil s, ?_, ?_, ?_, fun h => gtn_all_space s h⟩
  · rcases gtn_shape s with h | ⟨t, heq, hlen⟩
    · rw [h]
      decide
    · rw [heq]
      exact le_trans (collapseWs_length t) hlen
  · rcases gtn_shape s with h | ⟨t, heq, _⟩
    · rw [h]
      decide
    · rw [heq]
      intro hmem
      rcases collapseWs_chars t _ hmem with h1 | h1
      · exact absurd h1 (by decide)
      · exact absurd h1 (by decide)
  · rcases gtn_shape s with h | ⟨t, heq, _⟩
    · rw [h]
      exact newChat_chain
    · rw [heq]
      exact collapseWs_chain t

/-- Counterexample for claim C6 as stated: a 51-space message is longer
than 50 characters, yet `generate_thread_name` does not return its first 47
characters plus "..." (it returns "New Chat"). -/
theorem truncation_claim_counterexample :
    (List.replicate 51 ' ').length > 50 ∧
    generate_thread_name (List.replicate 51 ' ') ≠
      (List.replicate 51 ' ').take 47 ++ "...".toList := by
  exact ⟨by decide, by decide⟩

/-- Claim C6 (amended): the derived thread name of the first user message
"  Hello   there, can you help?  " is "Hello there, can you help?"
(whitespace collapsed and trimmed); every message whose stripped form is
longer than 50 characters yields the whitespace-collapsed concatenation of
the stripped form's first 47 characters and the ellipsis marker "..."; and
an empty first message yields the placeholder name "New Chat".  (As
literally stated, truncation of every message longer than 50 characters to
its own first 47 characters fails: the code strips first and tests the
stripped length, see `truncation_claim_counterexample`.) -/
theorem thread_name_derivation (s : List Char) (h : (pyStrip s).length > 50) :
    generate_thread_name "  Hello   there, can you help?  ".toList =
      "Hello there, can you help?".toList ∧
    generate_thread_name s = collapseWs ((pyStrip s).take 47 ++ "...".toList) ∧
    generate_thread_name [] = "New Chat".toList := by
  refine ⟨by decide, ?_, rfl⟩
  have hs : ¬ s.isEmpty := by
    intro he
    rw [List.isEmpty_iff] at he
    rw [he] at h
    have : pyStrip [] = [] := rfl
    rw [this] at h
    simp at h
  rw [generate_thread_name_eq, if_neg hs, if_pos h]
  have hne : collapseWs ((pyStrip s).take 47 ++ "...".toList) ≠ [] := by
    refine collapseWs_ne_nil _ ⟨Char.ofNat 46, ?_, by decide⟩
    exact List.mem_append_right _ (by decide)
  rw [if_neg (by simpa [List.isEmpty_iff] using hne)]

/-- Witness for claim C6: a 60-character message whose stripped form
exceeds 50 characters is truncated to its stripped form's first 47
characters plus "...". -/
theorem thread_name_derivation_witness :
    (pyStrip (List.replicate 60 'a')).length > 50 ∧
    generate_thread_name (List.replicate 60 'a') =
      collapseWs ((pyStrip (List.replicate 60 'a')).take 47 ++ "...".toList) :=
  ⟨by decide, (thread_name_derivation (List.replicate 60 'a') (by decide)).2.1⟩

/-- Witness for claim C10: a whitespace-only input satisfies the
all-whitespace hypothesis and yields exactly "New Chat". -/
theorem thread_name_invariants_witness :
    (∀ c ∈ (" \t ".toList), isPySpace c = true) ∧
    generate_thread_name " \t ".toList = "New Chat".toList :=
  ⟨by decide, (thread_name_invariants " \t ".toList).2.2.2.2 (by decide)⟩
